import Mathlib

/-!
Verification development for the `abnf` incremental parser-combinator crate.

The embedding models the two buffer worlds of the crate:

* the `EasyBuf` world (`src/parse/rule.rs`, `src/parse.rs`, `src/core.rs`,
  `src/ipaddr.rs`): rules are functions from a byte buffer to an outcome
  together with the buffer state the rule left behind;
* the `BytesMut`/`Token` world (`src/parse/token.rs`): token operations see
  the buffer read-only and move a tentative end offset; only the buffer
  lifters drain bytes.

Buffers are lists of byte values (`Nat`, each < 256 on real inputs).
Rust's `Poll<T, E> = Result<Async<T>, E>` is modelled by `Outcome T E`
with a fourth constructor `panicked` standing for a Rust panic (an
`assert!` failure), which is a contract violation, not a parse outcome.
-/

namespace Abnf

/-- Outcome of one parsing attempt: `pending` is `Ok(Async::NotReady)`,
`complete v` is `Ok(Async::Ready(v))`, `failed e` is `Err(e)`, and
`panicked` marks a Rust panic (assertion failure). -/
inductive Outcome (T : Type) (E : Type) where
  | pending : Outcome T E
  | complete : T → Outcome T E
  | failed : E → Outcome T E
  | panicked : Outcome T E
deriving Repr, DecidableEq

/-- An owned byte buffer (`EasyBuf` / `BytesMut`): the unconsumed input. -/
abbrev Buf : Type := List Nat

/-- The unit error of `src/parse/token.rs` (`TokenError`); `src/parse.rs`'s
`Error` is the same shape and is identified with it here. -/
inductive TokenError where
  | mk
deriving Repr, DecidableEq

/-- Early-return propagation of `try_ready!`: continue only on `complete`. -/
def andThen {T S E : Type} (x : Outcome T E × Buf)
    (f : T → Buf → Outcome S E × Buf) : Outcome S E × Buf :=
  match x with
  | (Outcome.complete v, b) => f v b
  | (Outcome.pending, b) => (Outcome.pending, b)
  | (Outcome.failed e, b) => (Outcome.failed e, b)
  | (Outcome.panicked, b) => (Outcome.panicked, b)

/-- `rule::group` (src/parse/rule.rs): snapshot the buffer, run the rule,
restore the snapshot on anything but `complete`. -/
def group {T E : Type} (f : Buf → Outcome T E × Buf) (buf : Buf) :
    Outcome T E × Buf :=
  match f buf with
  | (Outcome.complete v, b) => (Outcome.complete v, b)
  | (Outcome.pending, _) => (Outcome.pending, buf)
  | (Outcome.failed e, _) => (Outcome.failed e, buf)
  | (Outcome.panicked, b) => (Outcome.panicked, b)

/-- The loop body shared by `rule::repeat` and `rule::at_least_once`:
parse one element, hand the `Result` to `combine` (modelled with an
explicit closure state `s`), loop while `combine` answers `pending`.
The `fuel` argument bounds the number of iterations; exhausted fuel
stands for a diverging Rust loop and is reported as `pending`. -/
def repeatLoop {R E S F σ : Type} (p : Buf → Outcome R E × Buf)
    (c : σ → Except E R → Outcome S F × σ) :
    Nat → σ → Buf → Outcome S F × Buf
  | 0, _, buf => (Outcome.pending, buf)
  | fuel + 1, s, buf =>
    match p buf with
    | (Outcome.pending, b) => (Outcome.pending, b)
    | (Outcome.panicked, b) => (Outcome.panicked, b)
    | (Outcome.complete v, b) =>
      (match c s (Except.ok v) with
       | (Outcome.complete r, _) => (Outcome.complete r, b)
       | (Outcome.failed f2, _) => (Outcome.failed f2, b)
       | (Outcome.panicked, _) => (Outcome.panicked, b)
       | (Outcome.pending, s2) => repeatLoop p c fuel s2 b)
    | (Outcome.failed e, b) =>
      (match c s (Except.error e) with
       | (Outcome.complete r, _) => (Outcome.complete r, b)
       | (Outcome.failed f2, _) => (Outcome.failed f2, b)
       | (Outcome.panicked, _) => (Outcome.panicked, b)
       | (Outcome.pending, s2) => repeatLoop p c fuel s2 b)

/-- `rule::repeat` (src/parse/rule.rs): the loop wrapped in `group`. -/
def repeatRule {R E S F σ : Type} (p : Buf → Outcome R E × Buf)
    (c : σ → Except E R → Outcome S F × σ) (fuel : Nat) (s : σ)
    (buf : Buf) : Outcome S F × Buf :=
  group (repeatLoop p c fuel s) buf

/-- `rule::at_least_once` (src/parse/rule.rs): like `repeat`, but a
first-iteration failure is translated through `err` instead of being
handed to `combine`. -/
def at_least_once {R E S F σ : Type} (p : Buf → Outcome R E × Buf)
    (c : σ → Except E R → Outcome S F × σ) (err : E → F) (fuel : Nat)
    (s : σ) (buf : Buf) : Outcome S F × Buf :=
  group (fun buf =>
    match p buf with
    | (Outcome.pending, b) => (Outcome.pending, b)
    | (Outcome.panicked, b) => (Outcome.panicked, b)
    | (Outcome.failed e, b) => (Outcome.failed (err e), b)
    | (Outcome.complete v, b) =>
      (match c s (Except.ok v) with
       | (Outcome.complete r, _) => (Outcome.complete r, b)
       | (Outcome.failed f2, _) => (Outcome.failed f2, b)
       | (Outcome.panicked, _) => (Outcome.panicked, b)
       | (Outcome.pending, s2) => repeatLoop p c fuel s2 b)) buf

/-- `rule::optional` (src/parse/rule.rs): success becomes `some`, failure
becomes `complete none`, `pending` passes through; no snapshot, no
restore of its own. -/
def optional {R E F : Type} (f : Buf → Outcome R E × Buf) (buf : Buf) :
    Outcome (Option R) F × Buf :=
  match f buf with
  | (Outcome.pending, b) => (Outcome.pending, b)
  | (Outcome.complete v, b) => (Outcome.complete (some v), b)
  | (Outcome.failed _, b) => (Outcome.complete none, b)
  | (Outcome.panicked, b) => (Outcome.panicked, b)

/-- `parse::cats` (src/parse.rs): a non-empty run of octets matched by
`test`, terminated by a visible non-matching octet; drains the run. -/
def cats (test : Nat → Bool) (buf : Buf) : Outcome Buf TokenError × Buf :=
  let pre := buf.takeWhile test
  if pre.length = buf.length then (Outcome.pending, buf)
  else if pre.length = 0 then (Outcome.failed TokenError.mk, buf)
  else (Outcome.complete pre, buf.drop pre.length)

/-- `core::test_digit` (src/core.rs). -/
def test_digit (ch : Nat) : Bool := 0x30 ≤ ch && ch ≤ 0x39

/-- `core::test_hexdig` (src/core.rs). -/
def test_hexdig (ch : Nat) : Bool :=
  (0x30 ≤ ch && ch ≤ 0x39) || (0x41 ≤ ch && ch ≤ 0x46)
    || (0x61 ≤ ch && ch ≤ 0x66)

/-- `core::digits` (src/core.rs). -/
def digits (buf : Buf) : Outcome Buf TokenError × Buf := cats test_digit buf

/-- `core::hexdigs` (src/core.rs). -/
def hexdigs (buf : Buf) : Outcome Buf TokenError × Buf := cats test_hexdig buf

/-- `core::u8_digits` (src/core.rs): a 1-3 digit decimal octet; a 3-digit
value above 255 or a run of 4 or more digits is an error (the digit run
has been drained by `digits` by then). -/
def u8_digits (buf : Buf) : Outcome Nat TokenError × Buf :=
  match digits buf with
  | (Outcome.pending, b) => (Outcome.pending, b)
  | (Outcome.failed e, b) => (Outcome.failed e, b)
  | (Outcome.panicked, b) => (Outcome.panicked, b)
  | (Outcome.complete res, b) =>
    match res with
    | [a] => (Outcome.complete (a - 0x30), b)
    | [a, a2] => (Outcome.complete ((a - 0x30) * 10 + (a2 - 0x30)), b)
    | [a, a2, a3] =>
      let v := (a - 0x30) * 100 + (a2 - 0x30) * 10 + (a3 - 0x30)
      if v > 255 then (Outcome.failed TokenError.mk, b)
      else (Outcome.complete v, b)
    | _ => (Outcome.failed TokenError.mk, b)

/-- `core::translate_hexdig` (src/core.rs); the source panics on a
non-hexdig, modelled as 0 — every caller feeds it octets matched by
`test_hexdig`, so the branch is unreachable. -/
def translate_hexdig (ch : Nat) : Nat :=
  if 0x30 ≤ ch ∧ ch ≤ 0x39 then ch - 0x30
  else if 0x41 ≤ ch ∧ ch ≤ 0x46 then ch - 0x41 + 10
  else if 0x61 ≤ ch ∧ ch ≤ 0x66 then ch - 0x61 + 10
  else 0

/-- `core::u16_hexdigs` (src/core.rs): a 1-4 hexdig group assembled with
shifts and ors exactly as in the source. -/
def u16_hexdigs (buf : Buf) : Outcome Nat TokenError × Buf :=
  match hexdigs buf with
  | (Outcome.pending, b) => (Outcome.pending, b)
  | (Outcome.failed e, b) => (Outcome.failed e, b)
  | (Outcome.panicked, b) => (Outcome.panicked, b)
  | (Outcome.complete res, b) =>
    match res with
    | [a] => (Outcome.complete (translate_hexdig a), b)
    | [a, a2] =>
      (Outcome.complete (translate_hexdig a <<< 4 ||| translate_hexdig a2), b)
    | [a, a2, a3] =>
      (Outcome.complete (translate_hexdig a <<< 8
        ||| translate_hexdig a2 <<< 4 ||| translate_hexdig a3), b)
    | [a, a2, a3, a4] =>
      (Outcome.complete (translate_hexdig a <<< 12
        ||| translate_hexdig a2 <<< 8 ||| translate_hexdig a3 <<< 4
        ||| translate_hexdig a4), b)
    | _ => (Outcome.failed TokenError.mk, b)

/-- `token::skip_octet` (src/parse/token.rs) as used on the rule buffer in
`src/ipaddr.rs`: drain the first octet if it equals `value`; `pending` on
an empty buffer, error on a mismatch. -/
def skip_octet (value : Nat) (buf : Buf) : Outcome Unit TokenError × Buf :=
  match buf with
  | [] => (Outcome.pending, [])
  | ch :: rest =>
    if ch = value then (Outcome.complete (), rest)
    else (Outcome.failed TokenError.mk, ch :: rest)

/-- `ipaddr::parse_ipv4_addr` (src/ipaddr.rs): four decimal octets
separated by `.`, the whole chain wrapped in `group`. The `Ipv4Addr`
value is represented by its four octets. -/
def parse_ipv4_addr (buf : Buf) : Outcome (List Nat) TokenError × Buf :=
  group (fun b0 =>
    andThen (u8_digits b0) (fun a b1 =>
    andThen (skip_octet 0x2E b1) (fun _ b2 =>
    andThen (u8_digits b2) (fun a2 b3 =>
    andThen (skip_octet 0x2E b3) (fun _ b4 =>
    andThen (u8_digits b4) (fun a3 b5 =>
    andThen (skip_octet 0x2E b5) (fun _ b6 =>
    andThen (u8_digits b6) (fun a4 b7 =>
    (Outcome.complete [a, a2, a3, a4], b7))))))))) buf

/-- `ipaddr::ipv6_full` (src/ipaddr.rs): eight colon-separated hex groups.
The `Ipv6Addr` value is represented by its eight 16-bit groups. -/
def ipv6_full (buf : Buf) : Outcome (List Nat) TokenError × Buf :=
  group (fun b0 =>
    andThen (u16_hexdigs b0) (fun a b1 =>
    andThen (skip_octet 0x3A b1) (fun _ b2 =>
    andThen (u16_hexdigs b2) (fun a2 b3 =>
    andThen (skip_octet 0x3A b3) (fun _ b4 =>
    andThen (u16_hexdigs b4) (fun a3 b5 =>
    andThen (skip_octet 0x3A b5) (fun _ b6 =>
    andThen (u16_hexdigs b6) (fun a4 b7 =>
    andThen (skip_octet 0x3A b7) (fun _ b8 =>
    andThen (u16_hexdigs b8) (fun a5 b9 =>
    andThen (skip_octet 0x3A b9) (fun _ b10 =>
    andThen (u16_hexdigs b10) (fun a6 b11 =>
    andThen (skip_octet 0x3A b11) (fun _ b12 =>
    andThen (u16_hexdigs b12) (fun a7 b13 =>
    andThen (skip_octet 0x3A b13) (fun _ b14 =>
    andThen (u16_hexdigs b14) (fun a8 b15 =>
    (Outcome.complete [a, a2, a3, a4, a5, a6, a7, a8],
     b15))))))))))))))))) buf

/-- The all-zero groups array `[0u16, 0, 0, 0, 0, 0, 0, 0]`. -/
def zeros8 : List Nat := [0, 0, 0, 0, 0, 0, 0, 0]

/-- The component loop of `ipaddr::ipv6_comp_left` (src/ipaddr.rs):
up to `rem` more groups each ending in a colon; on a second consecutive
colon, drain it and report the count so far. `i` is the loop index. -/
def ipv6_comp_left_loop :
    List Nat → Nat → Nat → Buf → Outcome (List Nat × Nat) TokenError × Buf
  | res, i, 0, buf => (Outcome.complete (res, i), buf)
  | res, i, rem + 1, buf =>
    match u16_hexdigs buf with
    | (Outcome.pending, b) => (Outcome.pending, b)
    | (Outcome.failed e, b) => (Outcome.failed e, b)
    | (Outcome.panicked, b) => (Outcome.panicked, b)
    | (Outcome.complete v, b1) =>
      match skip_octet 0x3A b1 with
      | (Outcome.pending, b) => (Outcome.pending, b)
      | (Outcome.failed e, b) => (Outcome.failed e, b)
      | (Outcome.panicked, b) => (Outcome.panicked, b)
      | (Outcome.complete _, b2) =>
        if b2.head? = some 0x3A then
          (Outcome.complete (res.set i v, i + 1), b2.drop 1)
        else ipv6_comp_left_loop (res.set i v) (i + 1) rem b2

/-- `ipaddr::ipv6_comp_left` (src/ipaddr.rs): `pending` below 3 octets;
a leading `::` means an empty left side; otherwise up to `max` groups. -/
def ipv6_comp_left (max : Nat) (buf : Buf) :
    Outcome (List Nat × Nat) TokenError × Buf :=
  if buf.length < 3 then (Outcome.pending, buf)
  else
    match buf with
    | 0x3A :: 0x3A :: rest => (Outcome.complete (zeros8, 0), rest)
    | _ => ipv6_comp_left_loop zeros8 0 max buf

/-- The component loop of `ipaddr::ipv6_comp_right` (src/ipaddr.rs).
A failed group parse is "no more groups" on the first iteration and an
error afterwards; a missing separator (error or end of buffer alike)
stops with `i + 1` groups; on the last budgeted group a trailing colon
is consumed and the full budget is reported. -/
def ipv6_comp_right_loop :
    List Nat → Nat → Nat → Nat → Buf →
      Outcome (List Nat × Nat) TokenError × Buf
  | res, _, max, 0, buf => (Outcome.complete (res, max), buf)
  | res, i, max, rem + 1, buf =>
    match u16_hexdigs buf with
    | (Outcome.pending, b) => (Outcome.pending, b)
    | (Outcome.panicked, b) => (Outcome.panicked, b)
    | (Outcome.failed _, b) =>
      if i = 0 then (Outcome.complete (res, 0), b)
      else (Outcome.failed TokenError.mk, b)
    | (Outcome.complete v, b1) =>
      match skip_octet 0x3A b1 with
      | (Outcome.complete _, b2) =>
        if i = max - 1 then (Outcome.complete (res.set i v, max), b2)
        else ipv6_comp_right_loop (res.set i v) (i + 1) max rem b2
      | (_, b2) => (Outcome.complete (res.set i v, i + 1), b2)

/-- `ipaddr::ipv6_comp_right` (src/ipaddr.rs). -/
def ipv6_comp_right (max : Nat) (buf : Buf) :
    Outcome (List Nat × Nat) TokenError × Buf :=
  ipv6_comp_right_loop zeros8 0 max max buf

/-- `ipaddr::ipv6_comp` (src/ipaddr.rs): compressed form; the trailing
groups land in slots `8 - right_count + i` (`left[8 - right_count + i] =
right[i]`). -/
def ipv6_comp (buf : Buf) : Outcome (List Nat) TokenError × Buf :=
  group (fun b0 =>
    andThen (ipv6_comp_left 6 b0) (fun lp b1 =>
    andThen (ipv6_comp_right (6 - lp.2) b1) (fun rp b2 =>
      let merged := (List.range rp.2).foldl
        (fun l i => l.set (8 - rp.2 + i) (rp.1.getD i 0)) lp.1
      (Outcome.complete merged, b2)))) buf

/-- `ipaddr::ipv6v4_full` (src/ipaddr.rs): six hex groups, then a dotted
IPv4 literal filling the last 32 bits. -/
def ipv6v4_full (buf : Buf) : Outcome (List Nat) TokenError × Buf :=
  group (fun b0 =>
    andThen (u16_hexdigs b0) (fun a b1 =>
    andThen (skip_octet 0x3A b1) (fun _ b2 =>
    andThen (u16_hexdigs b2) (fun a2 b3 =>
    andThen (skip_octet 0x3A b3) (fun _ b4 =>
    andThen (u16_hexdigs b4) (fun a3 b5 =>
    andThen (skip_octet 0x3A b5) (fun _ b6 =>
    andThen (u16_hexdigs b6) (fun a4 b7 =>
    andThen (skip_octet 0x3A b7) (fun _ b8 =>
    andThen (u16_hexdigs b8) (fun a5 b9 =>
    andThen (skip_octet 0x3A b9) (fun _ b10 =>
    andThen (u16_hexdigs b10) (fun a6 b11 =>
    andThen (skip_octet 0x3A b11) (fun _ b12 =>
    andThen (u8_digits b12) (fun g1 b13 =>
    andThen (skip_octet 0x2E b13) (fun _ b14 =>
    andThen (u8_digits b14) (fun g2 b15 =>
    andThen (skip_octet 0x2E b15) (fun _ b16 =>
    andThen (u8_digits b16) (fun h1 b17 =>
    andThen (skip_octet 0x2E b17) (fun _ b18 =>
    andThen (u8_digits b18) (fun h2 b19 =>
    (Outcome.complete [a, a2, a3, a4, a5, a6,
                       g1 <<< 8 ||| g2, h1 <<< 8 ||| h2],
     b19))))))))))))))))))))) buf

/-- `ipaddr::ipv6v4_comp` (src/ipaddr.rs), including the source's index
expression `left[6 - right_count + 1] = right[i]` in the copy loop. -/
def ipv6v4_comp (buf : Buf) : Outcome (List Nat) TokenError × Buf :=
  group (fun b0 =>
    andThen (ipv6_comp_left 4 b0) (fun lp b1 =>
    andThen (ipv6_comp_right (4 - lp.2) b1) (fun rp b2 =>
    andThen (parse_ipv4_addr b2) (fun v4 b3 =>
      let merged := (List.range rp.2).foldl
        (fun l i => l.set (6 - rp.2 + 1) (rp.1.getD i 0)) lp.1
      let full := (merged.set 6 (v4.getD 0 0 <<< 8 ||| v4.getD 1 0)).set 7
        (v4.getD 2 0 <<< 8 ||| v4.getD 3 0)
      (Outcome.complete full, b3))))) buf

/-- `ipaddr::parse_ipv6_addr` (src/ipaddr.rs): the `try_fail!` chain —
`complete` and `pending` return at once, an error moves on to the next
alternative. -/
def parse_ipv6_addr (buf : Buf) : Outcome (List Nat) TokenError × Buf :=
  match ipv6_full buf with
  | (Outcome.complete v, b) => (Outcome.complete v, b)
  | (Outcome.pending, b) => (Outcome.pending, b)
  | (Outcome.panicked, b) => (Outcome.panicked, b)
  | (Outcome.failed _, b1) =>
    match ipv6_comp b1 with
    | (Outcome.complete v, b) => (Outcome.complete v, b)
    | (Outcome.pending, b) => (Outcome.pending, b)
    | (Outcome.panicked, b) => (Outcome.panicked, b)
    | (Outcome.failed _, b2) =>
      match ipv6v4_full b2 with
      | (Outcome.complete v, b) => (Outcome.complete v, b)
      | (Outcome.pending, b) => (Outcome.pending, b)
      | (Outcome.panicked, b) => (Outcome.panicked, b)
      | (Outcome.failed _, b3) =>
        match ipv6v4_comp b3 with
        | (Outcome.complete v, b) => (Outcome.complete v, b)
        | (Outcome.pending, b) => (Outcome.pending, b)
        | (Outcome.panicked, b) => (Outcome.panicked, b)
        | (Outcome.failed _, b4) => (Outcome.failed TokenError.mk, b4)

/-- ASCII lower-casing of one octet (`to_ascii_lowercase`). -/
def lowerByte (ch : Nat) : Nat := if 0x41 ≤ ch ∧ ch ≤ 0x5A then ch + 32 else ch

/-- `Token::advance` (src/parse/token.rs): move the tentative end offset;
`none` models the `assert!(end + count <= len)` panic. -/
def tadvance (bytes : Buf) (e count : Nat) : Option Nat :=
  if e + count ≤ bytes.length then some (e + count) else none

/-- `Token::advance_if` (src/parse/token.rs): peek the next octet, advance
over it when `test` holds, report the test result; `pending` at the end
of the buffer. Token operations return the outcome and the new end
offset; they cannot touch the buffer itself. -/
def tadvance_if {E : Type} (test : Nat → Bool) (bytes : Buf) (e : Nat) :
    Outcome Bool E × Nat :=
  match bytes.get? e with
  | none => (Outcome.pending, e)
  | some ch =>
    if test ch then
      match tadvance bytes e 1 with
      | some e2 => (Outcome.complete true, e2)
      | none => (Outcome.panicked, e)
    else (Outcome.complete false, e)

/-- `Token::expect` (src/parse/token.rs). -/
def texpect {E : Type} (test : Nat → Bool) (mkerr : Unit → E) (bytes : Buf)
    (e : Nat) : Outcome Unit E × Nat :=
  match bytes.get? e with
  | none => (Outcome.pending, e)
  | some ch =>
    if test ch then
      match tadvance bytes e 1 with
      | some e2 => (Outcome.complete (), e2)
      | none => (Outcome.panicked, e)
    else (Outcome.failed (mkerr ()), e)

/-- `token::octet` (src/parse/token.rs): the next octet must be `value`. -/
def toctet (value : Nat) (bytes : Buf) (e : Nat) :
    Outcome Unit TokenError × Nat :=
  match bytes.get? e with
  | none => (Outcome.pending, e)
  | some ch =>
    if ch = value then
      match tadvance bytes e 1 with
      | some e2 => (Outcome.complete (), e2)
      | none => (Outcome.panicked, e)
    else (Outcome.failed TokenError.mk, e)

/-- `token::cat` (src/parse/token.rs): one octet meeting `test`. -/
def tcat (test : Nat → Bool) (bytes : Buf) (e : Nat) :
    Outcome Unit TokenError × Nat :=
  match tadvance_if (E := TokenError) test bytes e with
  | (Outcome.pending, e2) => (Outcome.pending, e2)
  | (Outcome.failed er, e2) => (Outcome.failed er, e2)
  | (Outcome.panicked, e2) => (Outcome.panicked, e2)
  | (Outcome.complete true, e2) => (Outcome.complete (), e2)
  | (Outcome.complete false, e2) => (Outcome.failed TokenError.mk, e2)

/-- The `loop` of `token::opt_cats` (src/parse/token.rs): keep advancing
while `test` matches; `complete true` at the first visible mismatch,
`pending` when the run reaches the buffer end. -/
def topt_cats_loop (test : Nat → Bool) (bytes : Buf) (e : Nat) :
    Outcome Bool TokenError × Nat :=
  match h : bytes.get? e with
  | none => (Outcome.pending, e)
  | some ch =>
    if test ch then
      if h2 : e + 1 ≤ bytes.length then topt_cats_loop test bytes (e + 1)
      else (Outcome.panicked, e)
    else (Outcome.complete true, e)
termination_by bytes.length - e
decreasing_by
  have : e < bytes.length := List.get?_eq_some.mp h |>.1
  omega

/-- `token::opt_cats` (src/parse/token.rs): a possibly empty run of
octets meeting `test`, reporting whether it was non-empty. -/
def topt_cats (test : Nat → Bool) (bytes : Buf) (e : Nat) :
    Outcome Bool TokenError × Nat :=
  match bytes.get? e with
  | none => (Outcome.pending, e)
  | some ch =>
    if test ch then
      if e + 1 ≤ bytes.length then topt_cats_loop test bytes (e + 1)
      else (Outcome.panicked, e)
    else (Outcome.complete false, e)

/-- `token::cats` (src/parse/token.rs): `cat` then `opt_cats`. -/
def tcats (test : Nat → Bool) (bytes : Buf) (e : Nat) :
    Outcome Unit TokenError × Nat :=
  match tcat test bytes e with
  | (Outcome.pending, e1) => (Outcome.pending, e1)
  | (Outcome.failed er, e1) => (Outcome.failed er, e1)
  | (Outcome.panicked, e1) => (Outcome.panicked, e1)
  | (Outcome.complete _, e1) =>
    match topt_cats test bytes e1 with
    | (Outcome.pending, e2) => (Outcome.pending, e2)
    | (Outcome.failed er, e2) => (Outcome.failed er, e2)
    | (Outcome.panicked, e2) => (Outcome.panicked, e2)
    | (Outcome.complete _, e2) => (Outcome.complete (), e2)

/-- `token::literal` (src/parse/token.rs): case-insensitive fixed-octet
match; fails on the first mismatching octet of the available prefix,
`pending` while the matching prefix is shorter than the literal. -/
def tliteral (lit : List Nat) (bytes : Buf) (e : Nat) :
    Outcome Unit TokenError × Nat :=
  let remaining := bytes.drop e
  let minlen := min remaining.length lit.length
  if (remaining.take minlen).map lowerByte ≠ (lit.take minlen).map lowerByte
  then (Outcome.failed TokenError.mk, e)
  else if minlen < lit.length then (Outcome.pending, e)
  else
    match tadvance bytes e lit.length with
    | some e2 => (Outcome.complete (), e2)
    | none => (Outcome.panicked, e)

/-- `token::parse` (src/parse/token.rs): run a token operation atop a
fresh token (end offset 0); on `complete` drain the matched span and
return it, otherwise leave the buffer untouched. -/
def tparse {E : Type} (op : Buf → Nat → Outcome Unit E × Nat) (bytes : Buf) :
    Outcome Buf E × Buf :=
  match op bytes 0 with
  | (Outcome.complete _, e) => (Outcome.complete (bytes.take e), bytes.drop e)
  | (Outcome.pending, _) => (Outcome.pending, bytes)
  | (Outcome.failed er, _) => (Outcome.failed er, bytes)
  | (Outcome.panicked, _) => (Outcome.panicked, bytes)

/-- `token::convert` (src/parse/token.rs): `parse`, then feed the matched
span (or the error) to `conv`; a `conv` error becomes the outcome. -/
def tconvert {E F R : Type} (op : Buf → Nat → Outcome Unit E × Nat)
    (conv : Except E Buf → Except F R) (bytes : Buf) : Outcome R F × Buf :=
  match tparse op bytes with
  | (Outcome.pending, b) => (Outcome.pending, b)
  | (Outcome.panicked, b) => (Outcome.panicked, b)
  | (Outcome.complete tok, b) =>
    (match conv (Except.ok tok) with
     | Except.ok r => (Outcome.complete r, b)
     | Except.error f2 => (Outcome.failed f2, b))
  | (Outcome.failed er, b) =>
    (match conv (Except.error er) with
     | Except.ok r => (Outcome.complete r, b)
     | Except.error f2 => (Outcome.failed f2, b))

/-- `token::skip` (src/parse/token.rs): `parse`, discarding the span. -/
def tskip {E : Type} (op : Buf → Nat → Outcome Unit E × Nat) (bytes : Buf) :
    Outcome Unit E × Buf :=
  match tparse op bytes with
  | (Outcome.complete _, b) => (Outcome.complete (), b)
  | (Outcome.pending, b) => (Outcome.pending, b)
  | (Outcome.failed er, b) => (Outcome.failed er, b)
  | (Outcome.panicked, b) => (Outcome.panicked, b)

/-- Checked 64-bit multiply (`u64::checked_mul`). -/
def checked_mul64 (a b : Nat) : Option Nat :=
  if a * b < 2 ^ 64 then some (a * b) else none

/-- Checked 64-bit add (`u64::checked_add`). -/
def checked_add64 (a b : Nat) : Option Nat :=
  if a + b < 2 ^ 64 then some (a + b) else none

/-- One step of the checked accumulation: `acc * radix + d` with overflow
checked on the multiply and on the add. -/
def accum64_step (radix : Nat) (acc : Option Nat) (d : Nat) : Option Nat :=
  match acc with
  | none => none
  | some a =>
    match checked_mul64 a radix with
    | none => none
    | some m => checked_add64 m d

/-- Left-to-right checked fold over a digit-value list at width 64. -/
def accum64 (radix : Nat) (ds : List Nat) : Option Nat :=
  ds.foldl (accum64_step radix) (some 0)

/-- Modelled from the spec: the repository's `src/` has no 64-bit decimal
accumulation decoder (only the fixed-width `u8_digits` and `u16_hexdigs`
exist); sections 4.5 and 8 of the spec describe one — a digit span
validated by `cats`, folded left-to-right as `acc = acc * radix + digit`
with overflow checked on every multiply and every add against the 64-bit
width, overflow reported as an error. -/
def u64_digits (buf : Buf) : Outcome Nat TokenError × Buf :=
  match digits buf with
  | (Outcome.pending, b) => (Outcome.pending, b)
  | (Outcome.failed e, b) => (Outcome.failed e, b)
  | (Outcome.panicked, b) => (Outcome.panicked, b)
  | (Outcome.complete res, b) =>
    match accum64 10 (res.map (fun ch => ch - 0x30)) with
    | some v => (Outcome.complete v, b)
    | none => (Outcome.failed TokenError.mk, b)

/-- The base-10 digit values of `n`, most significant first. -/
def digitsOf (n : Nat) : List Nat :=
  if n < 10 then [n] else digitsOf (n / 10) ++ [n % 10]

/-- The ASCII decimal text of `n`. -/
def decimalBytes (n : Nat) : Buf := (digitsOf n).map (fun d => d + 0x30)

/-- The value denoted by a digit-value list, most significant first. -/
def natVal (ds : List Nat) : Nat := ds.foldl (fun a d => a * 10 + d) 0

/-- The plain (unchecked) left-to-right fold from accumulator `a`. -/
def natValFrom (a : Nat) (ds : List Nat) : Nat :=
  ds.foldl (fun x d => x * 10 + d) a

/-- The value denoted by an ASCII digit run. -/
def fieldVal (l : Buf) : Nat := natVal (l.map (fun ch => ch - 0x30))

/-- A well-formed dotted-decimal octet field: non-empty, at most three
ASCII digits, value at most 255 (leading zeros allowed). -/
def okField (l : Buf) : Prop :=
  l ≠ [] ∧ l.length ≤ 3 ∧ (∀ x ∈ l, test_digit x = true) ∧ fieldVal l ≤ 255

/-- Whether a byte list contains the two-octet sequence `"::"`. -/
def hasDoubleColon : Buf → Bool
  | [] => false
  | [_] => false
  | a :: b :: rest => (a = 0x3A && b = 0x3A) || hasDoubleColon (b :: rest)

lemma takeWhile_append_of (test : Nat → Bool) (ds : Buf) (r : Nat)
    (t : Buf) (hds : ∀ x ∈ ds, test x = true) (hr : test r = false) :
    (ds ++ r :: t).takeWhile test = ds := by
  induction ds with
  | nil => simp [List.takeWhile_cons, hr]
  | cons d ds ih =>
    have hd : test d = true := hds d (by simp)
    simp only [List.cons_append, List.takeWhile_cons, hd, if_true]
    rw [ih (fun x hx => hds x (by simp [hx]))]

lemma cats_exact (test : Nat → Bool) (ds : Buf) (r : Nat) (t : Buf)
    (hne : ds ≠ []) (hds : ∀ x ∈ ds, test x = true) (hr : test r = false) :
    cats test (ds ++ r :: t) = (Outcome.complete ds, r :: t) := by
  have hl : ds.length ≠ 0 := fun h => hne (List.length_eq_zero.mp h)
  simp only [cats, takeWhile_append_of test ds r t hds hr]
  rw [if_neg (by simp), if_neg hl, List.drop_left]

lemma u8_digits_exact (l : Buf) (r : Nat) (t : Buf) (h : okField l)
    (hr : test_digit r = false) :
    u8_digits (l ++ r :: t) = (Outcome.complete (fieldVal l), r :: t) := by
  obtain ⟨hne, hlen, hdig, hval⟩ := h
  have hc : digits (l ++ r :: t) = (Outcome.complete l, r :: t) :=
    cats_exact _ l r t hne hdig hr
  unfold u8_digits
  rw [hc]
  rcases l with _ | ⟨a, _ | ⟨a2, _ | ⟨a3, _ | ⟨a4, t4⟩⟩⟩⟩
  · exact absurd rfl hne
  · simp [fieldVal, natVal]
  · simp [fieldVal, natVal]
  · simp only [fieldVal, natVal, List.map, List.foldl] at hval ⊢
    rw [if_neg (by omega)]
    have harith : (a - 0x30) * 100 + (a2 - 0x30) * 10 + (a3 - 0x30) =
        ((0 * 10 + (a - 0x30)) * 10 + (a2 - 0x30)) * 10 + (a3 - 0x30) := by
      ring
    rw [harith]
  · simp at hlen

lemma skip_octet_cons (v : Nat) (rest : Buf) :
    skip_octet v (v :: rest) = (Outcome.complete (), rest) := by
  simp [skip_octet]

lemma digitsOf_mem_lt (n : Nat) : ∀ x ∈ digitsOf n, x < 10 := by
  induction n using Nat.strong_induction_on with
  | _ n ih =>
    rw [digitsOf]
    split
    · rename_i hn
      intro x hx
      simp at hx
      omega
    · rename_i hn
      intro x hx
      rcases List.mem_append.mp hx with hx | hx
      · exact ih (n / 10) (Nat.div_lt_self (by omega) (by norm_num)) x hx
      · simp at hx
        subst hx
        exact Nat.mod_lt _ (by norm_num)

lemma digitsOf_ne_nil (n : Nat) : digitsOf n ≠ [] := by
  rw [digitsOf]
  split
  · simp
  · simp

lemma digitsOf_length_le (k : Nat) : ∀ n, n < 10 ^ k → 1 ≤ k →
    (digitsOf n).length ≤ k := by
  induction k with
  | zero => omega
  | succ k ih =>
    intro n hn _
    rw [digitsOf]
    split
    · simp
    · rename_i hten
      have hk : 1 ≤ k := by
        rcases Nat.eq_zero_or_pos k with hk0 | hk0
        · subst hk0
          simp [pow_succ] at hn
          omega
        · exact hk0
      have hdiv : n / 10 < 10 ^ k := by
        rw [Nat.div_lt_iff_lt_mul (by norm_num)]
        calc n < 10 ^ (k + 1) := hn
        _ = 10 ^ k * 10 := by rw [pow_succ]
      have := ih (n / 10) hdiv hk
      simp [List.length_append]
      omega

lemma natVal_append_single (l : List Nat) (x : Nat) :
    natVal (l ++ [x]) = natVal l * 10 + x := by
  simp [natVal, List.foldl_append]

lemma natVal_digitsOf (n : Nat) : natVal (digitsOf n) = n := by
  induction n using Nat.strong_induction_on with
  | _ n ih =>
    rw [digitsOf]
    split
    · rename_i hn
      simp [natVal]
    · rename_i hn
      rw [natVal_append_single,
        ih (n / 10) (Nat.div_lt_self (by omega) (by norm_num))]
      omega

lemma fieldVal_decimalBytes (n : Nat) : fieldVal (decimalBytes n) = n := by
  unfold fieldVal decimalBytes
  rw [List.map_map]
  have : ((fun ch => ch - 0x30) ∘ fun d => d + 0x30) = id := by
    funext d
    simp
  rw [this, List.map_id]
  exact natVal_digitsOf n

lemma decimalBytes_digits (n : Nat) :
    ∀ x ∈ decimalBytes n, test_digit x = true := by
  intro x hx
  unfold decimalBytes at hx
  rcases List.mem_map.mp hx with ⟨d, hd, rfl⟩
  have := digitsOf_mem_lt n d hd
  simp [test_digit]
  omega

lemma okField_decimalBytes (n : Nat) (h : n ≤ 255) :
    okField (decimalBytes n) := by
  refine ⟨?_, ?_, decimalBytes_digits n, ?_⟩
  · simp [decimalBytes, digitsOf_ne_nil n]
  · have : (digitsOf n).length ≤ 3 :=
      digitsOf_length_le 3 n (by omega) (by norm_num)
    simpa [decimalBytes] using this
  · rw [fieldVal_decimalBytes]
    exact h

/-- C10: `optional` performs no snapshot or restore of its own: when the
inner rule returns `Failed`, `optional` returns `Complete none` with the
buffer exactly as the inner rule left it, and it passes the inner rule's
buffer state through unchanged on `Pending`; restoring the buffer on
failure is entirely the inner rule's responsibility. -/
theorem c10_optional_pass_through (R E F : Type)
    (f : Buf → Outcome R E × Buf) (buf b : Buf) :
    (∀ e, f buf = (Outcome.failed e, b) →
      optional (F := F) f buf = (Outcome.complete none, b)) ∧
    (f buf = (Outcome.pending, b) →
      optional (F := F) f buf = (Outcome.pending, b)) := by
  constructor
  · intro e h
    unfold optional
    rw [h]
  · intro h
    unfold optional
    rw [h]

/-- Witness for C10 at the concrete rule `skip_octet ':'` on buffer
`"1"`, where the rule fails leaving the buffer as `"1"`. -/
theorem c10_optional_pass_through_witness :
    optional (F := TokenError) (skip_octet 0x3A) [0x31] =
      (Outcome.complete none, [0x31]) :=
  (c10_optional_pass_through Unit TokenError TokenError (skip_octet 0x3A)
    [0x31] [0x31]).1 TokenError.mk (by decide)

/-- C2: a `Pending` from whichever IPv6 alternative `parse_ipv6_addr` is
currently running (all earlier alternatives having failed) propagates as
the overall result — it is never treated as "try the next
alternative". -/
theorem c2_pending_propagates (buf b : Buf) :
    (ipv6_full buf = (Outcome.pending, b) →
      parse_ipv6_addr buf = (Outcome.pending, b)) ∧
    (∀ e1 b1, ipv6_full buf = (Outcome.failed e1, b1) →
      ipv6_comp b1 = (Outcome.pending, b) →
      parse_ipv6_addr buf = (Outcome.pending, b)) ∧
    (∀ e1 e2 b1 b2, ipv6_full buf = (Outcome.failed e1, b1) →
      ipv6_comp b1 = (Outcome.failed e2, b2) →
      ipv6v4_full b2 = (Outcome.pending, b) →
      parse_ipv6_addr buf = (Outcome.pending, b)) ∧
    (∀ e1 e2 e3 b1 b2 b3, ipv6_full buf = (Outcome.failed e1, b1) →
      ipv6_comp b1 = (Outcome.failed e2, b2) →
      ipv6v4_full b2 = (Outcome.failed e3, b3) →
      ipv6v4_comp b3 = (Outcome.pending, b) →
      parse_ipv6_addr buf = (Outcome.pending, b)) := by
  refine ⟨fun h1 => ?_, fun e1 b1 h1 h2 => ?_,
    fun e1 e2 b1 b2 h1 h2 h3 => ?_,
    fun e1 e2 e3 b1 b2 b3 h1 h2 h3 h4 => ?_⟩ <;>
    simp only [parse_ipv6_addr, h1]
  · simp only [h2]
  · simp only [h2, h3]
  · simp only [h2, h3, h4]

/-- Witness for C2 at buffer `"1"`: the full-form alternative is
undecided (the hex run reaches the buffer end), and `parse_ipv6_addr`
reports `Pending`. -/
theorem c2_pending_propagates_witness :
    parse_ipv6_addr [0x31] = (Outcome.pending, [0x31]) :=
  (c2_pending_propagates [0x31] [0x31]).1 (by decide)

/-- C3: evaluation of `ipv6v4_comp` on `"::A:B:C:D:9.8.7.6 "`
(`left_count = 0`, `right_count = 4`): the code's copy loop
`left[6 - right_count + 1] = right[i]` collapses all four trailing
groups into slot 3, producing groups `(0,0,0,0xD,0,0,0x0908,0x0706)`
instead of the claim's `(0,0,0xA,0xB,0xC,0xD,0x0908,0x0706)`. -/
theorem c3_slot_misplacement_eval :
    ipv6v4_comp [0x3A, 0x3A, 0x41, 0x3A, 0x42, 0x3A, 0x43, 0x3A, 0x44,
        0x3A, 0x39, 0x2E, 0x38, 0x2E, 0x37, 0x2E, 0x36, 0x20] =
      (Outcome.complete [0, 0, 0, 13, 0, 0, 2312, 1798], [0x20]) ∧
    ([0, 0, 0, 13, 0, 0, 2312, 1798] : List Nat) ≠
      [0, 0, 10, 11, 12, 13, 2312, 1798] := by
  exact ⟨by decide, by decide⟩

/-- C4: evaluation of `parse_ipv6_addr` on `"::FFFF:192.0.2.1 "`: the
greedy compressed alternative wins first, consuming only `"::FFFF:192"`
(reading `192` as the hex group 0x192) and leaving `".0.2.1 "` in the
buffer, so the result is `::FFFF:0x192`, not the embedded-IPv4 form. -/
theorem c4_embedded_ipv4_eval :
    parse_ipv6_addr [0x3A, 0x3A, 0x46, 0x46, 0x46, 0x46, 0x3A, 0x31,
        0x39, 0x32, 0x2E, 0x30, 0x2E, 0x32, 0x2E, 0x31, 0x20] =
      (Outcome.complete [0, 0, 0, 0, 0, 0, 0xFFFF, 0x192],
       [0x2E, 0x30, 0x2E, 0x32, 0x2E, 0x31, 0x20]) ∧
    ([0, 0, 0, 0, 0, 0, 0xFFFF, 0x192] : List Nat) ≠
      [0, 0, 0, 0, 0, 0xFFFF, 0xC000, 0x0201] := by
  exact ⟨by decide, by decide⟩

/-- C5: evaluation of `ipv6_comp` on `"1:2:3:4:5:6:7:8 "`, a buffer that
contains no `"::"` at all: the left half exhausts its budget of six
groups without ever seeing a compression point and `ipv6_comp` still
returns `Complete`, draining `"1:2:3:4:5:6:"`. -/
theorem c5_no_double_colon_eval :
    ipv6_comp [0x31, 0x3A, 0x32, 0x3A, 0x33, 0x3A, 0x34, 0x3A, 0x35,
        0x3A, 0x36, 0x3A, 0x37, 0x3A, 0x38, 0x20] =
      (Outcome.complete [1, 2, 3, 4, 5, 6, 0, 0],
       [0x37, 0x3A, 0x38, 0x20]) ∧
    hasDoubleColon [0x31, 0x3A, 0x32, 0x3A, 0x33, 0x3A, 0x34, 0x3A, 0x35,
        0x3A, 0x36, 0x3A, 0x37, 0x3A, 0x38, 0x20] = false := by
  exact ⟨by decide, by decide⟩

/-- C8 counterexample: `parse_ipv4_addr` on `"012.3.4.5 "`, whose first
field has an extraneous leading zero, returns `Complete 12.3.4.5` — it
does not reject the leading zero. -/
theorem c8_leading_zero_counterexample :
    parse_ipv4_addr [0x30, 0x31, 0x32, 0x2E, 0x33, 0x2E, 0x34, 0x2E,
        0x35, 0x20] = (Outcome.complete [12, 3, 4, 5], [0x20]) ∧
    (Outcome.complete [12, 3, 4, 5] : Outcome (List Nat) TokenError) ≠
      Outcome.failed TokenError.mk := by
  exact ⟨by decide, by decide⟩

/-- C6: `u8_digits` returns `Complete n` on the decimal text of any
`n ≤ 255` followed by a non-digit; it returns `Failed` on a 3-digit run
whose value exceeds 255 and on any run of four or more digits followed
by a non-digit. -/
theorem c6_u8_digits_range :
    (∀ n d, n ≤ 255 → test_digit d = false →
      u8_digits (decimalBytes n ++ [d]) = (Outcome.complete n, [d])) ∧
    (∀ a a2 a3 d, test_digit a = true → test_digit a2 = true →
      test_digit a3 = true → test_digit d = false →
      255 < fieldVal [a, a2, a3] →
      u8_digits ([a, a2, a3] ++ [d]) = (Outcome.failed TokenError.mk, [d])) ∧
    (∀ ds d, 4 ≤ ds.length → (∀ x ∈ ds, test_digit x = true) →
      test_digit d = false →
      u8_digits (ds ++ [d]) = (Outcome.failed TokenError.mk, [d])) := by
  refine ⟨fun n d hn hd => ?_, fun a a2 a3 d ha ha2 ha3 hd hv => ?_,
    fun ds d hlen hds hd => ?_⟩
  · have := u8_digits_exact (decimalBytes n) d []
      (okField_decimalBytes n hn) hd
    rwa [fieldVal_decimalBytes] at this
  · have hc : digits ([a, a2, a3] ++ d :: []) =
        (Outcome.complete [a, a2, a3], [d]) :=
      cats_exact _ _ d [] (by simp) (by simp [ha, ha2, ha3]) hd
    simp only [List.cons_append, List.nil_append] at hc ⊢
    simp only [fieldVal, natVal, List.map, List.foldl] at hv
    simp only [u8_digits, hc]
    rw [if_pos (by omega)]
  · have hne : ds ≠ [] := by
      intro h
      subst h
      simp at hlen
    have hc : digits (ds ++ d :: []) = (Outcome.complete ds, [d]) :=
      cats_exact _ _ d [] hne hds hd
    unfold u8_digits
    rw [hc]
    rcases ds with _ | ⟨x1, _ | ⟨x2, _ | ⟨x3, _ | ⟨x4, t4⟩⟩⟩⟩ <;>
      simp_all

/-- Witness for C6: the decimal text `"255"` followed by a space decodes
to 255; `"256 "` (a 3-digit value above 255) and `"2568 "` (four digits)
fail. -/
theorem c6_u8_digits_range_witness :
    u8_digits (decimalBytes 255 ++ [0x20]) = (Outcome.complete 255, [0x20]) ∧
    u8_digits [0x32, 0x35, 0x36, 0x20] =
      (Outcome.failed TokenError.mk, [0x20]) ∧
    u8_digits [0x32, 0x35, 0x36, 0x38, 0x20] =
      (Outcome.failed TokenError.mk, [0x20]) :=
  ⟨c6_u8_digits_range.1 255 0x20 (by decide) (by decide),
   c6_u8_digits_range.2.1 0x32 0x35 0x36 0x20 (by decide) (by decide)
     (by decide) (by decide) (by decide),
   c6_u8_digits_range.2.2 [0x32, 0x35, 0x36, 0x38] 0x20 (by decide)
     (by decide) (by decide)⟩

/-- C8 amended: `parse_ipv4_addr` does not reject extraneous leading
zeros — every dotted-decimal text whose four fields are 1–3 digit runs
of value at most 255 (leading zeros allowed) parses to the fields'
numeric values. -/
theorem c8_leading_zeros_accepted (l1 l2 l3 l4 : Buf) (d : Nat)
    (h1 : okField l1) (h2 : okField l2) (h3 : okField l3) (h4 : okField l4)
    (hd : test_digit d = false) :
    parse_ipv4_addr
        (l1 ++ 0x2E :: (l2 ++ 0x2E :: (l3 ++ 0x2E :: (l4 ++ [d])))) =
      (Outcome.complete [fieldVal l1, fieldVal l2, fieldVal l3, fieldVal l4],
       [d]) := by
  have hdot : test_digit 0x2E = false := by decide
  have e1 := u8_digits_exact l1 0x2E
    (l2 ++ 0x2E :: (l3 ++ 0x2E :: (l4 ++ [d]))) h1 hdot
  have e2 := u8_digits_exact l2 0x2E (l3 ++ 0x2E :: (l4 ++ [d])) h2 hdot
  have e3 := u8_digits_exact l3 0x2E (l4 ++ [d]) h3 hdot
  have e4 : u8_digits (l4 ++ [d]) = (Outcome.complete (fieldVal l4), [d]) :=
    u8_digits_exact l4 d [] h4 hd
  simp only [parse_ipv4_addr, group, andThen, e1, e2, e3, e4,
    skip_octet_cons]

/-- Witness for C8's amended claim at `"012.3.4.5 "`: the leading-zero
field `012` is accepted with value 12. -/
theorem c8_leading_zeros_accepted_witness :
    parse_ipv4_addr ([0x30, 0x31, 0x32] ++ 0x2E :: ([0x33] ++ 0x2E ::
        ([0x34] ++ 0x2E :: ([0x35] ++ [0x20])))) =
      (Outcome.complete [fieldVal [0x30, 0x31, 0x32], fieldVal [0x33],
        fieldVal [0x34], fieldVal [0x35]], [0x20]) :=
  c8_leading_zeros_accepted [0x30, 0x31, 0x32] [0x33] [0x34] [0x35] 0x20
    ⟨by decide, by decide, by decide, by decide⟩
    ⟨by decide, by decide, by decide, by decide⟩
    ⟨by decide, by decide, by decide, by decide⟩
    ⟨by decide, by decide, by decide, by decide⟩
    (by decide)

lemma natValFrom_nil (a : Nat) : natValFrom a [] = a := rfl

lemma natValFrom_cons (a d : Nat) (ds : List Nat) :
    natValFrom a (d :: ds) = natValFrom (a * 10 + d) ds := rfl

lemma natVal_eq_natValFrom (ds : List Nat) : natVal ds = natValFrom 0 ds :=
  rfl

lemma le_natValFrom (ds : List Nat) : ∀ a, a ≤ natValFrom a ds := by
  induction ds with
  | nil => intro a; exact Nat.le_refl a
  | cons d ds ih =>
    intro a
    rw [natValFrom_cons]
    calc a ≤ a * 10 + d := by omega
    _ ≤ natValFrom (a * 10 + d) ds := ih _

lemma checked_mul64_of_lt {a b : Nat} (h : a * b < 2 ^ 64) :
    checked_mul64 a b = some (a * b) := by
  unfold checked_mul64
  rw [if_pos h]

lemma checked_mul64_of_ge {a b : Nat} (h : ¬ a * b < 2 ^ 64) :
    checked_mul64 a b = none := by
  unfold checked_mul64
  rw [if_neg h]

lemma checked_add64_of_lt {a b : Nat} (h : a + b < 2 ^ 64) :
    checked_add64 a b = some (a + b) := by
  unfold checked_add64
  rw [if_pos h]

lemma checked_add64_of_ge {a b : Nat} (h : ¬ a + b < 2 ^ 64) :
    checked_add64 a b = none := by
  unfold checked_add64
  rw [if_neg h]

lemma accum64_step_some {a d : Nat} (hm : a * 10 < 2 ^ 64)
    (hs : a * 10 + d < 2 ^ 64) :
    accum64_step 10 (some a) d = some (a * 10 + d) := by
  show (match checked_mul64 a 10 with
        | none => none
        | some m => checked_add64 m d) = some (a * 10 + d)
  rw [checked_mul64_of_lt hm]
  exact checked_add64_of_lt hs

lemma accum64_step_overflow {a d : Nat} (hs : ¬ a * 10 + d < 2 ^ 64) :
    accum64_step 10 (some a) d = none := by
  show (match checked_mul64 a 10 with
        | none => none
        | some m => checked_add64 m d) = none
  by_cases hm : a * 10 < 2 ^ 64
  · rw [checked_mul64_of_lt hm]
    exact checked_add64_of_ge hs
  · rw [checked_mul64_of_ge hm]

lemma accum64_foldl_none (ds : List Nat) :
    List.foldl (accum64_step 10) none ds = none := by
  induction ds with
  | nil => rfl
  | cons d ds ih => simpa [accum64_step] using ih

lemma accum64_foldl_sound (ds : List Nat) : ∀ a v, a < 2 ^ 64 →
    List.foldl (accum64_step 10) (some a) ds = some v →
    v = natValFrom a ds ∧ v < 2 ^ 64 := by
  induction ds with
  | nil =>
    intro a v ha hv
    simp at hv
    subst hv
    exact ⟨rfl, ha⟩
  | cons d ds ih =>
    intro a v ha hv
    rw [List.foldl_cons] at hv
    by_cases hs : a * 10 + d < 2 ^ 64
    · have hm : a * 10 < 2 ^ 64 := by omega
      rw [accum64_step_some hm hs] at hv
      rw [natValFrom_cons]
      exact ih (a * 10 + d) v hs hv
    · rw [accum64_step_overflow hs, accum64_foldl_none] at hv
      exact absurd hv (by simp)

lemma accum64_foldl_complete (ds : List Nat) : ∀ a,
    natValFrom a ds < 2 ^ 64 →
    List.foldl (accum64_step 10) (some a) ds = some (natValFrom a ds) := by
  induction ds with
  | nil => intro a _; rfl
  | cons d ds ih =>
    intro a hlt
    rw [natValFrom_cons] at hlt
    have hstep2 : a * 10 + d < 2 ^ 64 :=
      Nat.lt_of_le_of_lt (le_natValFrom ds (a * 10 + d)) hlt
    have hstep1 : a * 10 < 2 ^ 64 := by omega
    rw [List.foldl_cons, accum64_step_some hstep1 hstep2, natValFrom_cons]
    exact ih (a * 10 + d) hlt

lemma accum64_some (ds : List Nat) (h : natVal ds < 2 ^ 64) :
    accum64 10 ds = some (natVal ds) := by
  rw [natVal_eq_natValFrom] at h ⊢
  exact accum64_foldl_complete ds 0 h

lemma accum64_none (ds : List Nat) (h : 2 ^ 64 ≤ natVal ds) :
    accum64 10 ds = none := by
  rcases hv : accum64 10 ds with _ | v
  · rfl
  · have := accum64_foldl_sound ds 0 v (by norm_num) hv
    rw [← natVal_eq_natValFrom] at this
    omega

lemma map_sub_decimalBytes (n : Nat) :
    (decimalBytes n).map (fun ch => ch - 0x30) = digitsOf n := by
  unfold decimalBytes
  rw [List.map_map]
  have : ((fun ch => ch - 0x30) ∘ fun d => d + 0x30) = id := by
    funext d
    simp
  rw [this, List.map_id]

/-- C7: the 64-bit decimal accumulation decoder (modelled from the spec,
see `u64_digits`) decodes the decimal text of every `n < 2^64` to
exactly `n`, fails with overflow on the text of any `n ≥ 2^64`, and its
checked fold never produces a value outside the 64-bit range — overflow
is caught on every multiply and every add. -/
theorem c7_u64_accumulation :
    (∀ ds v, accum64 10 ds = some v → v < 2 ^ 64) ∧
    (∀ n d, test_digit d = false → n < 2 ^ 64 →
      u64_digits (decimalBytes n ++ [d]) = (Outcome.complete n, [d])) ∧
    (∀ n d, test_digit d = false → 2 ^ 64 ≤ n →
      u64_digits (decimalBytes n ++ [d]) =
        (Outcome.failed TokenError.mk, [d])) := by
  have hdig : ∀ n d, test_digit d = false →
      digits (decimalBytes n ++ d :: []) =
        (Outcome.complete (decimalBytes n), [d]) := fun n d hd =>
    cats_exact _ _ d [] (by simp [decimalBytes, digitsOf_ne_nil n])
      (decimalBytes_digits n) hd
  have hval : ∀ n, natVal ((decimalBytes n).map (fun ch => ch - 0x30)) =
      n := fun n => by rw [map_sub_decimalBytes, natVal_digitsOf]
  refine ⟨fun ds v hv => (accum64_foldl_sound ds 0 v (by norm_num) hv).2,
    fun n d hd hn => ?_, fun n d hd hn => ?_⟩
  · have hs := accum64_some ((decimalBytes n).map (fun ch => ch - 0x30))
      (by rw [hval n]; exact hn)
    simp only [u64_digits, hdig n d hd, hs, hval n]
  · have hs := accum64_none ((decimalBytes n).map (fun ch => ch - 0x30))
      (by rw [hval n]; exact hn)
    simp only [u64_digits, hdig n d hd, hs]

/-- Witness for C7: `"7 "` decodes to 7; the decimal text of `2^64`
followed by a space fails with overflow; a concrete checked fold stays
below `2^64`. -/
theorem c7_u64_accumulation_witness :
    u64_digits (decimalBytes 7 ++ [0x20]) = (Outcome.complete 7, [0x20]) ∧
    u64_digits (decimalBytes (2 ^ 64) ++ [0x20]) =
      (Outcome.failed TokenError.mk, [0x20]) ∧
    (1 : Nat) < 2 ^ 64 :=
  ⟨c7_u64_accumulation.2.1 7 0x20 (by decide) (by norm_num),
   c7_u64_accumulation.2.2 (2 ^ 64) 0x20 (by decide) (Nat.le_refl _),
   c7_u64_accumulation.1 [1] 1 (by decide)⟩

lemma tadvance_of_get {bytes : Buf} {e ch : Nat}
    (h : bytes.get? e = some ch) : tadvance bytes e 1 = some (e + 1) := by
  have : e < bytes.length := (List.get?_eq_some.mp h).1
  unfold tadvance
  rw [if_pos (by omega)]

lemma tadvance_if_ne_panic (E : Type) (test : Nat → Bool) (bytes : Buf)
    (e : Nat) : (tadvance_if (E := E) test bytes e).1 ≠ Outcome.panicked := by
  unfold tadvance_if
  rcases h : bytes.get? e with _ | ch
  · simp [h]
  · simp only [h]
    rw [tadvance_of_get h]
    split <;> simp

lemma texpect_ne_panic (E : Type) (test : Nat → Bool) (mkerr : Unit → E)
    (bytes : Buf) (e : Nat) :
    (texpect test mkerr bytes e).1 ≠ Outcome.panicked := by
  unfold texpect
  rcases h : bytes.get? e with _ | ch
  · simp [h]
  · simp only [h]
    rw [tadvance_of_get h]
    split <;> simp

lemma toctet_ne_panic (value : Nat) (bytes : Buf) (e : Nat) :
    (toctet value bytes e).1 ≠ Outcome.panicked := by
  unfold toctet
  rcases h : bytes.get? e with _ | ch
  · simp [h]
  · simp only [h]
    rw [tadvance_of_get h]
    split <;> simp

lemma tcat_ne_panic (test : Nat → Bool) (bytes : Buf) (e : Nat) :
    (tcat test bytes e).1 ≠ Outcome.panicked := by
  unfold tcat
  rcases h : tadvance_if (E := TokenError) test bytes e with ⟨r, e2⟩
  have := tadvance_if_ne_panic TokenError test bytes e
  rw [h] at this
  cases r with
  | pending => simp
  | failed er => simp
  | panicked => simp at this
  | complete v => cases v <;> simp

lemma topt_cats_loop_ne_panic (test : Nat → Bool) (bytes : Buf) :
    ∀ m e, bytes.length - e ≤ m →
      (topt_cats_loop test bytes e).1 ≠ Outcome.panicked := by
  intro m
  induction m with
  | zero =>
    intro e he
    rw [topt_cats_loop]
    have hnone : bytes.get? e = none := List.get?_eq_none.mpr (by omega)
    split
    · simp
    · rename_i ch heq
      rw [hnone] at heq
      exact absurd heq (by simp)
  | succ m ih =>
    intro e he
    rw [topt_cats_loop]
    split
    · simp
    · rename_i ch heq
      have hlt : e < bytes.length := (List.get?_eq_some.mp heq).1
      split
      · split
        · exact ih (e + 1) (by omega)
        · rename_i h2
          exact absurd (by omega : e + 1 ≤ bytes.length) h2
      · simp

lemma topt_cats_ne_panic (test : Nat → Bool) (bytes : Buf) (e : Nat) :
    (topt_cats test bytes e).1 ≠ Outcome.panicked := by
  unfold topt_cats
  rcases h : bytes.get? e with _ | ch
  · simp [h]
  · have hlt : e < bytes.length := (List.get?_eq_some.mp h).1
    simp only [h]
    split
    · rw [if_pos (by omega : e + 1 ≤ bytes.length)]
      exact topt_cats_loop_ne_panic test bytes bytes.length (e + 1) (by omega)
    · simp

lemma tcats_ne_panic (test : Nat → Bool) (bytes : Buf) (e : Nat) :
    (tcats test bytes e).1 ≠ Outcome.panicked := by
  unfold tcats
  rcases h1 : tcat test bytes e with ⟨r1, e1⟩
  have hc := tcat_ne_panic test bytes e
  rw [h1] at hc
  cases r1 with
  | pending => simp
  | failed er => simp
  | panicked => simp at hc
  | complete v =>
    rcases h2 : topt_cats test bytes e1 with ⟨r2, e2⟩
    have ho := topt_cats_ne_panic test bytes e1
    rw [h2] at ho
    cases r2 <;> simp_all

lemma tliteral_ne_panic (lit : List Nat) (bytes : Buf) (e : Nat)
    (h : e ≤ bytes.length) :
    (tliteral lit bytes e).1 ≠ Outcome.panicked := by
  simp only [tliteral]
  split
  · simp
  · split
    · simp
    · rename_i hmin
      have hle : e + lit.length ≤ bytes.length := by
        rw [List.length_drop] at hmin
        omega
      unfold tadvance
      rw [if_pos hle]
      simp

/-- C9: the `assert!(end + count <= len)` panic branch inside
`Token::advance` is unreachable from the public token parsers: on every
token state with a valid end offset, `advance_if`, `expect`, `octet`,
`cat`, `cats`, `opt_cats` and `literal` never hit the `panicked`
outcome, because each advances only by an amount it has confirmed is
available. -/
theorem c9_advance_never_panics (bytes : Buf) (e : Nat)
    (h : e ≤ bytes.length) (test : Nat → Bool) (value : Nat)
    (lit : List Nat) (mkerr : Unit → TokenError) :
    (tadvance_if (E := TokenError) test bytes e).1 ≠ Outcome.panicked ∧
    (texpect test mkerr bytes e).1 ≠ Outcome.panicked ∧
    (toctet value bytes e).1 ≠ Outcome.panicked ∧
    (tcat test bytes e).1 ≠ Outcome.panicked ∧
    (tcats test bytes e).1 ≠ Outcome.panicked ∧
    (topt_cats test bytes e).1 ≠ Outcome.panicked ∧
    (tliteral lit bytes e).1 ≠ Outcome.panicked :=
  ⟨tadvance_if_ne_panic TokenError test bytes e,
   texpect_ne_panic TokenError test mkerr bytes e,
   toctet_ne_panic value bytes e,
   tcat_ne_panic test bytes e,
   tcats_ne_panic test bytes e,
   topt_cats_ne_panic test bytes e,
   tliteral_ne_panic lit bytes e h⟩

/-- Witness for C9 on the fresh token over the buffer `"0"` (end offset
0) with the digit predicate, octet value `'0'` and literal `"0"`. -/
theorem c9_advance_never_panics_witness :
    (tadvance_if (E := TokenError) test_digit [0x30] 0).1 ≠
      Outcome.panicked ∧
    (texpect test_digit (fun _ => TokenError.mk) [0x30] 0).1 ≠
      Outcome.panicked ∧
    (toctet 0x30 [0x30] 0).1 ≠ Outcome.panicked ∧
    (tcat test_digit [0x30] 0).1 ≠ Outcome.panicked ∧
    (tcats test_digit [0x30] 0).1 ≠ Outcome.panicked ∧
    (topt_cats test_digit [0x30] 0).1 ≠ Outcome.panicked ∧
    (tliteral [0x30] [0x30] 0).1 ≠ Outcome.panicked :=
  c9_advance_never_panics [0x30] 0 (by decide) test_digit 0x30 [0x30]
    (fun _ => TokenError.mk)

lemma group_pending_eq {T E : Type} {f : Buf → Outcome T E × Buf}
    {buf b : Buf} (h : group f buf = (Outcome.pending, b)) : b = buf := by
  unfold group at h
  rcases hf : f buf with ⟨r, b2⟩
  rw [hf] at h
  cases r <;> simp_all

lemma group_failed_eq {T E : Type} {f : Buf → Outcome T E × Buf}
    {buf b : Buf} {er : E} (h : group f buf = (Outcome.failed er, b)) :
    b = buf := by
  unfold group at h
  rcases hf : f buf with ⟨r, b2⟩
  rw [hf] at h
  cases r <;> simp_all

lemma tparse_pending_eq {E : Type} {op : Buf → Nat → Outcome Unit E × Nat}
    {bytes b : Buf} (h : tparse op bytes = (Outcome.pending, b)) :
    b = bytes := by
  unfold tparse at h
  rcases hop : op bytes 0 with ⟨r, e⟩
  rw [hop] at h
  cases r <;> simp_all

lemma tparse_failed_eq {E : Type} {op : Buf → Nat → Outcome Unit E × Nat}
    {bytes b : Buf} {er : E} (h : tparse op bytes = (Outcome.failed er, b)) :
    b = bytes := by
  unfold tparse at h
  rcases hop : op bytes 0 with ⟨r, e⟩
  rw [hop] at h
  cases r <;> simp_all

lemma tparse_failed_of_op {E : Type} {op : Buf → Nat → Outcome Unit E × Nat}
    {bytes : Buf} {er : E} (h : (op bytes 0).1 = Outcome.failed er) :
    tparse op bytes = (Outcome.failed er, bytes) := by
  unfold tparse
  rcases hop : op bytes 0 with ⟨r, e⟩
  rw [hop] at h
  simp at h
  rw [h]

lemma parse_ipv4_addr_pending_eq {buf b : Buf}
    (h : parse_ipv4_addr buf = (Outcome.pending, b)) : b = buf := by
  unfold parse_ipv4_addr at h
  exact group_pending_eq h

lemma parse_ipv4_addr_failed_eq {buf b : Buf} {er : TokenError}
    (h : parse_ipv4_addr buf = (Outcome.failed er, b)) : b = buf := by
  unfold parse_ipv4_addr at h
  exact group_failed_eq h

lemma ipv6_full_pending_eq {buf b : Buf}
    (h : ipv6_full buf = (Outcome.pending, b)) : b = buf := by
  unfold ipv6_full at h
  exact group_pending_eq h

lemma ipv6_full_failed_eq {buf b : Buf} {er : TokenError}
    (h : ipv6_full buf = (Outcome.failed er, b)) : b = buf := by
  unfold ipv6_full at h
  exact group_failed_eq h

lemma ipv6_comp_pending_eq {buf b : Buf}
    (h : ipv6_comp buf = (Outcome.pending, b)) : b = buf := by
  unfold ipv6_comp at h
  exact group_pending_eq h

lemma ipv6_comp_failed_eq {buf b : Buf} {er : TokenError}
    (h : ipv6_comp buf = (Outcome.failed er, b)) : b = buf := by
  unfold ipv6_comp at h
  exact group_failed_eq h

lemma ipv6v4_full_pending_eq {buf b : Buf}
    (h : ipv6v4_full buf = (Outcome.pending, b)) : b = buf := by
  unfold ipv6v4_full at h
  exact group_pending_eq h

lemma ipv6v4_full_failed_eq {buf b : Buf} {er : TokenError}
    (h : ipv6v4_full buf = (Outcome.failed er, b)) : b = buf := by
  unfold ipv6v4_full at h
  exact group_failed_eq h

lemma ipv6v4_comp_pending_eq {buf b : Buf}
    (h : ipv6v4_comp buf = (Outcome.pending, b)) : b = buf := by
  unfold ipv6v4_comp at h
  exact group_pending_eq h

lemma ipv6v4_comp_failed_eq {buf b : Buf} {er : TokenError}
    (h : ipv6v4_comp buf = (Outcome.failed er, b)) : b = buf := by
  unfold ipv6v4_comp at h
  exact group_failed_eq h

lemma parse_ipv6_addr_restore (buf : Buf) :
    (∀ b, parse_ipv6_addr buf = (Outcome.pending, b) → b = buf) ∧
    (∀ er b, parse_ipv6_addr buf = (Outcome.failed er, b) → b = buf) := by
  constructor
  · intro b hb
    unfold parse_ipv6_addr at hb
    rcases h1 : ipv6_full buf with ⟨r1, b1⟩
    rw [h1] at hb
    cases r1 with
    | complete v => simp at hb
    | panicked => simp at hb
    | pending =>
      simp at hb
      rw [← hb]
      exact ipv6_full_pending_eq h1
    | failed e1 =>
      have hb1 : b1 = buf := ipv6_full_failed_eq h1
      simp only [] at hb
      rcases h2 : ipv6_comp b1 with ⟨r2, b2⟩
      rw [h2] at hb
      cases r2 with
      | complete v => simp at hb
      | panicked => simp at hb
      | pending =>
        simp at hb
        rw [← hb, ipv6_comp_pending_eq h2, hb1]
      | failed e2 =>
        have hb2 : b2 = b1 := ipv6_comp_failed_eq h2
        simp only [] at hb
        rcases h3 : ipv6v4_full b2 with ⟨r3, b3⟩
        rw [h3] at hb
        cases r3 with
        | complete v => simp at hb
        | panicked => simp at hb
        | pending =>
          simp at hb
          rw [← hb, ipv6v4_full_pending_eq h3, hb2, hb1]
        | failed e3 =>
          have hb3 : b3 = b2 := ipv6v4_full_failed_eq h3
          simp only [] at hb
          rcases h4 : ipv6v4_comp b3 with ⟨r4, b4⟩
          rw [h4] at hb
          cases r4 with
          | complete v => simp at hb
          | panicked => simp at hb
          | pending =>
            simp at hb
            rw [← hb, ipv6v4_comp_pending_eq h4, hb3, hb2, hb1]
          | failed e4 => simp at hb
  · intro er b hb
    unfold parse_ipv6_addr at hb
    rcases h1 : ipv6_full buf with ⟨r1, b1⟩
    rw [h1] at hb
    cases r1 with
    | complete v => simp at hb
    | panicked => simp at hb
    | pending => simp at hb
    | failed e1 =>
      have hb1 : b1 = buf := ipv6_full_failed_eq h1
      simp only [] at hb
      rcases h2 : ipv6_comp b1 with ⟨r2, b2⟩
      rw [h2] at hb
      cases r2 with
      | complete v => simp at hb
      | panicked => simp at hb
      | pending => simp at hb
      | failed e2 =>
        have hb2 : b2 = b1 := ipv6_comp_failed_eq h2
        simp only [] at hb
        rcases h3 : ipv6v4_full b2 with ⟨r3, b3⟩
        rw [h3] at hb
        cases r3 with
        | complete v => simp at hb
        | panicked => simp at hb
        | pending => simp at hb
        | failed e3 =>
          have hb3 : b3 = b2 := ipv6v4_full_failed_eq h3
          simp only [] at hb
          rcases h4 : ipv6v4_comp b3 with ⟨r4, b4⟩
          rw [h4] at hb
          cases r4 with
          | complete v => simp at hb
          | panicked => simp at hb
          | pending => simp at hb
          | failed e4 =>
            have hb4 : b4 = b3 := ipv6v4_comp_failed_eq h4
            simp at hb
            rw [← hb, hb4, hb3, hb2, hb1]

/-- C1 counterexample: `convert` violates rewind idempotence. With the
token parser `octet '0'` and a decode closure that always fails, on the
buffer `"01"` the inner parse succeeds and drains `"0"`, then the decode
failure is returned as `Failed` — with the buffer now `"1"`, not the
original `"01"`. -/
theorem c1_rewind_counterexample :
    tconvert (R := Unit) (toctet 0x30)
        (fun _ => Except.error TokenError.mk) [0x30, 0x31] =
      (Outcome.failed TokenError.mk, [0x31]) ∧
    ([0x31] : Buf) ≠ [0x30, 0x31] :=
  ⟨by decide, by decide⟩

/-- C1 amended: every §4 combinator except `convert` leaves the buffer
unchanged whenever it returns `Pending` or `Failed` — unconditionally
for `parse`, `skip`, `group`, `repeat`, `at_least_once`,
`parse_ipv4_addr` and `parse_ipv6_addr`, and for `optional` provided the
inner rule restores the buffer on `Pending` (`optional` itself never
returns `Failed`). `convert` leaves the buffer unchanged on `Pending`
and whenever its inner parse failed, but a decode failure after a
successful inner parse returns `Failed` with the matched span already
drained. -/
theorem c1_rewind_amended :
    (∀ (E : Type) (op : Buf → Nat → Outcome Unit E × Nat) (bytes b : Buf),
      (tparse op bytes = (Outcome.pending, b) → b = bytes) ∧
      (∀ er, tparse op bytes = (Outcome.failed er, b) → b = bytes)) ∧
    (∀ (E : Type) (op : Buf → Nat → Outcome Unit E × Nat) (bytes b : Buf),
      (tskip op bytes = (Outcome.pending, b) → b = bytes) ∧
      (∀ er, tskip op bytes = (Outcome.failed er, b) → b = bytes)) ∧
    (∀ (E F R : Type) (op : Buf → Nat → Outcome Unit E × Nat)
      (conv : Except E Buf → Except F R) (bytes b : Buf),
      (tconvert op conv bytes = (Outcome.pending, b) → b = bytes) ∧
      (∀ er, (op bytes 0).1 = Outcome.failed er →
        (tconvert op conv bytes).2 = bytes)) ∧
    (∀ (T E : Type) (f : Buf → Outcome T E × Buf) (buf b : Buf),
      (group f buf = (Outcome.pending, b) → b = buf) ∧
      (∀ er, group f buf = (Outcome.failed er, b) → b = buf)) ∧
    (∀ (R E S F σ : Type) (p : Buf → Outcome R E × Buf)
      (c : σ → Except E R → Outcome S F × σ) (fuel : Nat) (s : σ)
      (buf b : Buf),
      (repeatRule p c fuel s buf = (Outcome.pending, b) → b = buf) ∧
      (∀ er, repeatRule p c fuel s buf = (Outcome.failed er, b) →
        b = buf)) ∧
    (∀ (R E S F σ : Type) (p : Buf → Outcome R E × Buf)
      (c : σ → Except E R → Outcome S F × σ) (err : E → F) (fuel : Nat)
      (s : σ) (buf b : Buf),
      (at_least_once p c err fuel s buf = (Outcome.pending, b) →
        b = buf) ∧
      (∀ er, at_least_once p c err fuel s buf = (Outcome.failed er, b) →
        b = buf)) ∧
    (∀ (R E F : Type) (f : Buf → Outcome R E × Buf) (buf : Buf),
      ((∀ b2, f buf = (Outcome.pending, b2) → b2 = buf) →
        ∀ b2, optional (F := F) f buf = (Outcome.pending, b2) →
          b2 = buf) ∧
      (∀ er b2, optional (F := F) f buf ≠ (Outcome.failed er, b2))) ∧
    (∀ buf b : Buf,
      (parse_ipv4_addr buf = (Outcome.pending, b) → b = buf) ∧
      (∀ er, parse_ipv4_addr buf = (Outcome.failed er, b) → b = buf)) ∧
    (∀ buf b : Buf,
      (parse_ipv6_addr buf = (Outcome.pending, b) → b = buf) ∧
      (∀ er, parse_ipv6_addr buf = (Outcome.failed er, b) → b = buf)) := by
  refine ⟨?_, ?_, ?_, ?_, ?_, ?_, ?_, ?_, ?_⟩
  · intro E op bytes b
    exact ⟨fun h => tparse_pending_eq h, fun er h => tparse_failed_eq h⟩
  · intro E op bytes b
    constructor
    · intro h
      unfold tskip at h
      rcases ht : tparse op bytes with ⟨r, b2⟩
      rw [ht] at h
      cases r with
      | complete v => simp at h
      | failed er => simp at h
      | panicked => simp at h
      | pending =>
        simp at h
        rw [← h]
        exact tparse_pending_eq ht
    · intro er h
      unfold tskip at h
      rcases ht : tparse op bytes with ⟨r, b2⟩
      rw [ht] at h
      cases r with
      | complete v => simp at h
      | pending => simp at h
      | panicked => simp at h
      | failed er2 =>
        simp at h
        rw [← h.2]
        exact tparse_failed_eq ht
  · intro E F R op conv bytes b
    constructor
    · intro h
      unfold tconvert at h
      rcases ht : tparse op bytes with ⟨r, b2⟩
      rw [ht] at h
      cases r with
      | panicked => simp at h
      | pending =>
        simp at h
        rw [← h]
        exact tparse_pending_eq ht
      | complete tok =>
        simp only [] at h
        cases hc : conv (Except.ok tok) <;> rw [hc] at h <;> simp at h
      | failed er =>
        simp only [] at h
        cases hc : conv (Except.error er) <;> rw [hc] at h <;> simp at h
    · intro er h
      have ht : tparse op bytes = (Outcome.failed er, bytes) :=
        tparse_failed_of_op h
      unfold tconvert
      rw [ht]
      show (match conv (Except.error er) with
            | Except.ok r => (Outcome.complete r, bytes)
            | Except.error f2 => (Outcome.failed f2, bytes)).2 = bytes
      cases hc : conv (Except.error er) <;> rfl
  · intro T E f buf b
    exact ⟨fun h => group_pending_eq h, fun er h => group_failed_eq h⟩
  · intro R E S F σ p c fuel s buf b
    constructor
    · intro h
      unfold repeatRule at h
      exact group_pending_eq h
    · intro er h
      unfold repeatRule at h
      exact group_failed_eq h
  · intro R E S F σ p c err fuel s buf b
    constructor
    · intro h
      unfold at_least_once at h
      exact group_pending_eq h
    · intro er h
      unfold at_least_once at h
      exact group_failed_eq h
  · intro R E F f buf
    constructor
    · intro hctr b2 h
      unfold optional at h
      rcases hf : f buf with ⟨r, bf⟩
      rw [hf] at h
      cases r with
      | complete v => simp at h
      | failed er => simp at h
      | panicked => simp at h
      | pending =>
        simp at h
        rw [← h]
        exact hctr bf hf
    · intro er b2 h
      unfold optional at h
      rcases hf : f buf with ⟨r, bf⟩
      rw [hf] at h
      cases r <;> simp at h
  · intro buf b
    exact ⟨fun h => parse_ipv4_addr_pending_eq h,
      fun er h => parse_ipv4_addr_failed_eq h⟩
  · intro buf b
    exact ⟨fun h => (parse_ipv6_addr_restore buf).1 b h,
      fun er h => (parse_ipv6_addr_restore buf).2 er b h⟩

/-- Witness for C1's amended claim at the concrete buffer `"A"`, on
which `parse_ipv4_addr` fails: the buffer is returned unchanged. -/
theorem c1_rewind_amended_witness :
    parse_ipv4_addr [0x41] = (Outcome.failed TokenError.mk, [0x41]) ∧
    ([0x41] : Buf) = [0x41] :=
  ⟨by decide,
   (c1_rewind_amended.2.2.2.2.2.2.2.1 [0x41] [0x41]).2 TokenError.mk
     (by decide)⟩

end Abnf
